import Mathlib

/-!
Verification of the linear Kalman filter core of `kalman-filter-rs`
(`src/kalman.rs`), shallowly embedded over exact rational arithmetic.

The Rust `KalmanFilter<const D: usize>` struct stores the transition
matrix `F`, process noise `Q`, a constructor-supplied noise matrix `R`,
the prior estimate `(x_pre, P_pre)` and an optional posterior estimate
`(x_post, P_post)`.  The two fallible operations `predict` and `update`
are embedded as `Option`-returning functions: a Rust `panic!` (the
malformed-posterior arms of `predict`) or a panicking
`try_inverse().unwrap()` on a singular innovation covariance (in
`update`) is modelled as `none`.
-/

set_option autoImplicit false

open Matrix

/-- Shallow embedding of the Rust struct `KalmanFilter<D>`: matrices over
exact rationals instead of `f32`; column vectors are `D × 1` matrices as
in the `nalgebra` source. -/
structure KalmanFilter (D : ℕ) where
  F : Matrix (Fin D) (Fin D) ℚ
  Q : Matrix (Fin D) (Fin D) ℚ
  R : Matrix (Fin D) (Fin D) ℚ
  x_pre : Matrix (Fin D) (Fin 1) ℚ
  P_pre : Matrix (Fin D) (Fin D) ℚ
  x_post : Option (Matrix (Fin D) (Fin 1) ℚ)
  P_post : Option (Matrix (Fin D) (Fin D) ℚ)
deriving DecidableEq

namespace KalmanFilter

variable {D : ℕ}

/-- Embedding of `KalmanFilter::new`: note that the Rust source
initializes `x_post` to `Some(x_init)` and `P_post` to `Some(P_init)`. -/
def new (F Q R : Matrix (Fin D) (Fin D) ℚ)
    (x_init : Matrix (Fin D) (Fin 1) ℚ)
    (P_init : Matrix (Fin D) (Fin D) ℚ) : KalmanFilter D :=
  ⟨F, Q, R, x_init, P_init, some x_init, some P_init⟩

/-- Embedding of nalgebra's `Matrix::try_inverse`: `none` on a singular
matrix, otherwise the usual inverse (over a field,
`S⁻¹ = S.det⁻¹ • S.adjugate`). -/
def tryInverse {n : ℕ} (S : Matrix (Fin n) (Fin n) ℚ) :
    Option (Matrix (Fin n) (Fin n) ℚ) :=
  if S.det = 0 then none else some (S.det⁻¹ • S.adjugate)

/-- Embedding of `KalmanFilter::predict`.  The two `panic!()` arms (posterior
state and covariance in inconsistent definedness) are modelled as `none`. -/
def predict (s : KalmanFilter D)
    (u : Option (Matrix (Fin D) (Fin 1) ℚ)) : Option (KalmanFilter D) :=
  match s.x_post, s.P_post with
  | none, none =>
      -- Simple prediction, no new observations; `u` is not consulted here.
      some { s with
        x_pre := s.F * s.x_pre,
        P_pre := s.F * s.P_pre * s.F.transpose + s.Q }
  | some xp, some Pp =>
      -- Finish calc for P_post and symmetrize, then update priors.
      let P1 := Pp * s.P_pre
      let P2 := (1 / 2 : ℚ) • (P1 + P1.transpose)
      some { s with
        x_pre := match u with
          | some uv => s.F * xp + uv
          | none => s.F * xp,
        P_pre := s.F * P2 * s.F.transpose + s.Q,
        x_post := none,
        P_post := none }
  | none, some _ => none
  | some _, none => none

/-- Embedding of `KalmanFilter::update`.  The panicking
`S.try_inverse().unwrap()` is modelled as `none` when `S` is singular;
no field of the state has been written at that point. -/
def update {D2 : ℕ} (s : KalmanFilter D)
    (H : Matrix (Fin D2) (Fin D) ℚ)
    (R : Matrix (Fin D2) (Fin D2) ℚ)
    (Z : Matrix (Fin D2) (Fin 1) ℚ) : Option (KalmanFilter D) :=
  let y := Z - H * s.x_pre
  let S := H * s.P_pre * H.transpose + R
  match tryInverse S with
  | none => none
  | some Sinv =>
      let K := s.P_pre * H.transpose * Sinv
      some { s with
        x_post := some (match s.x_post with
          | some xp => xp + K * y
          | none => s.x_pre + K * y),
        P_post := some (match s.P_post with
          | some Pp => Pp - K * H
          | none => (1 : Matrix (Fin D) (Fin D) ℚ) - K * H) }

end KalmanFilter

/-- One externally observable call on the filter: a `predict` with an
optional control input, or an `update` with a measurement of some
dimension `D2`. -/
inductive Op (D : ℕ) where
  | predictOp : Option (Matrix (Fin D) (Fin 1) ℚ) → Op D
  | updateOp : (D2 : ℕ) → Matrix (Fin D2) (Fin D) ℚ →
      Matrix (Fin D2) (Fin D2) ℚ → Matrix (Fin D2) (Fin 1) ℚ → Op D

namespace KalmanFilter

variable {D : ℕ}

/-- Apply a single call to a filter state. -/
def step (s : KalmanFilter D) : Op D → Option (KalmanFilter D)
  | Op.predictOp u => s.predict u
  | Op.updateOp _ H R Z => s.update H R Z

/-- Run a sequence of calls; `none` as soon as any call panics. -/
def run (s : KalmanFilter D) : List (Op D) → Option (KalmanFilter D)
  | [] => some s
  | op :: ops =>
      match s.step op with
      | none => none
      | some s' => s'.run ops

end KalmanFilter

/-- Whether the posterior is defined after running `ops`, starting from a
state where its definedness is `b`: every `predict` clears it, every
successful `update` sets it. -/
def postFlag {D : ℕ} (b : Bool) (ops : List (Op D)) : Bool :=
  ops.foldl (fun _ op => match op with
    | Op.predictOp _ => false
    | Op.updateOp _ _ _ _ => true) b

/-- The part of the filter state that excludes the constructor-supplied
noise matrix field `R`. -/
def stateObs {D : ℕ} (s : KalmanFilter D) :
    Matrix (Fin D) (Fin D) ℚ × Matrix (Fin D) (Fin D) ℚ ×
    Matrix (Fin D) (Fin 1) ℚ × Matrix (Fin D) (Fin D) ℚ ×
    Option (Matrix (Fin D) (Fin 1) ℚ) × Option (Matrix (Fin D) (Fin D) ℚ) :=
  (s.F, s.Q, s.x_pre, s.P_pre, s.x_post, s.P_post)

/-- Concrete one-dimensional filter as produced by the constructor. -/
def filA : KalmanFilter 1 := KalmanFilter.new 1 1 1 0 1

/-- Concrete one-dimensional filter state with no posterior pending. -/
def sNoPost : KalmanFilter 1 := ⟨1, 1, 1, 0, 1, none, none⟩

/-- Concrete control input `[5]`. -/
def uIn : Matrix (Fin 1) (Fin 1) ℚ := Matrix.of ![![5]]

/-- Concrete symmetric initial covariance for the symmetry counterexample. -/
def P0c : Matrix (Fin 2) (Fin 2) ℚ := Matrix.of ![![1, 1], ![1, 2]]

/-- Concrete `1 × 2` observation matrix. -/
def H1c : Matrix (Fin 1) (Fin 2) ℚ := Matrix.of ![![1, 0]]

/-- Concrete `1 × 1` measurement noise. -/
def R1c : Matrix (Fin 1) (Fin 1) ℚ := Matrix.of ![![1]]

/-- Concrete `1 × 1` measurement. -/
def Z1c : Matrix (Fin 1) (Fin 1) ℚ := Matrix.of ![![0]]

/-- Two-dimensional filter constructed with symmetric `P₀`, `Q`, `R`. -/
def s6run : KalmanFilter 2 := KalmanFilter.new 1 1 1 0 P0c

/-- The asymmetric posterior covariance produced by one `update` on `s6run`. -/
def Pbad : Matrix (Fin 2) (Fin 2) ℚ := Matrix.of ![![1/2, 1], ![1/2, 2]]

/-- The filter state after one `update` on `s6run`. -/
def s6after : KalmanFilter 2 := ⟨1, 1, 1, 0, P0c, some 0, some Pbad⟩

namespace KalmanFilter

variable {D : ℕ}

lemma tryInverse_eq_inv {n : ℕ} (S : Matrix (Fin n) (Fin n) ℚ) (h : S.det ≠ 0) :
    tryInverse S = some S⁻¹ := by
  rw [tryInverse, if_neg h, Matrix.inv_def, Ring.inverse_eq_inv]

lemma tryInverse_none_iff {n : ℕ} (S : Matrix (Fin n) (Fin n) ℚ) :
    tryInverse S = none ↔ S.det = 0 := by
  rw [tryInverse]
  by_cases h : S.det = 0 <;> simp [h]

/-- `update` evaluated when the innovation covariance is invertible. -/
lemma update_eq_some {D2 : ℕ} (s : KalmanFilter D)
    (H : Matrix (Fin D2) (Fin D) ℚ) (R : Matrix (Fin D2) (Fin D2) ℚ)
    (Z : Matrix (Fin D2) (Fin 1) ℚ) (Sinv : Matrix (Fin D2) (Fin D2) ℚ)
    (h : tryInverse (H * s.P_pre * H.transpose + R) = some Sinv) :
    s.update H R Z = some { s with
      x_post := some (match s.x_post with
        | some xp => xp + s.P_pre * H.transpose * Sinv * (Z - H * s.x_pre)
        | none => s.x_pre + s.P_pre * H.transpose * Sinv * (Z - H * s.x_pre)),
      P_post := some (match s.P_post with
        | some Pp => Pp - s.P_pre * H.transpose * Sinv * H
        | none => (1 : Matrix (Fin D) (Fin D) ℚ) - s.P_pre * H.transpose * Sinv * H) } := by
  simp only [KalmanFilter.update, h]

/-- `update` evaluated when the innovation covariance is singular. -/
lemma update_none_case {D2 : ℕ} (s : KalmanFilter D)
    (H : Matrix (Fin D2) (Fin D) ℚ) (R : Matrix (Fin D2) (Fin D2) ℚ)
    (Z : Matrix (Fin D2) (Fin 1) ℚ)
    (h : tryInverse (H * s.P_pre * H.transpose + R) = none) :
    s.update H R Z = none := by
  simp only [KalmanFilter.update, h]

/-- `predict` evaluated in the no-posterior branch. -/
lemma predict_nopost (s : KalmanFilter D) (h1 : s.x_post = none)
    (h2 : s.P_post = none) (u : Option (Matrix (Fin D) (Fin 1) ℚ)) :
    s.predict u = some { s with
      x_pre := s.F * s.x_pre,
      P_pre := s.F * s.P_pre * s.F.transpose + s.Q } := by
  simp only [KalmanFilter.predict, h1, h2]

/-- `predict` evaluated in the pending-posterior branch. -/
lemma predict_post (s : KalmanFilter D) (xp : Matrix (Fin D) (Fin 1) ℚ)
    (Pp : Matrix (Fin D) (Fin D) ℚ) (h1 : s.x_post = some xp)
    (h2 : s.P_post = some Pp) (u : Option (Matrix (Fin D) (Fin 1) ℚ)) :
    s.predict u = some { s with
      x_pre := match u with
        | some uv => s.F * xp + uv
        | none => s.F * xp,
      P_pre := s.F * ((1 / 2 : ℚ) • (Pp * s.P_pre + (Pp * s.P_pre).transpose)) * s.F.transpose + s.Q,
      x_post := none,
      P_post := none } := by
  simp only [KalmanFilter.predict, h1, h2]

/-- The definedness flag of both posterior fields after one successful call. -/
lemma step_post_flag (s s' : KalmanFilter D) (op : Op D)
    (h : s.step op = some s')
    (hflag : s.x_post.isSome = s.P_post.isSome) :
    s'.x_post.isSome = postFlag s.x_post.isSome [op] ∧
    s'.P_post.isSome = postFlag s.x_post.isSome [op] := by
  cases op with
  | predictOp u =>
    simp only [step] at h
    cases hx : s.x_post with
    | none =>
      cases hP : s.P_post with
      | none =>
        rw [s.predict_nopost hx hP u] at h
        injection h with h
        subst h
        simp [postFlag, hx, hP]
      | some Pp =>
        rw [hx, hP] at hflag
        simp at hflag
    | some xp =>
      cases hP : s.P_post with
      | none =>
        rw [hx, hP] at hflag
        simp at hflag
      | some Pp =>
        rw [s.predict_post xp Pp hx hP u] at h
        injection h with h
        subst h
        simp [postFlag, hx]
  | updateOp D2 H R Z =>
    simp only [step] at h
    cases hI : tryInverse (H * s.P_pre * H.transpose + R) with
    | none => rw [s.update_none_case H R Z hI] at h; exact absurd h (by simp)
    | some Sinv =>
      rw [s.update_eq_some H R Z Sinv hI] at h
      injection h with h
      subst h
      simp [postFlag]

/-- Along any successful trace, the definedness of both posterior fields
follows `postFlag`. -/
lemma run_post_flag : ∀ (ops : List (Op D)) (s s' : KalmanFilter D),
    s.run ops = some s' → s.x_post.isSome = s.P_post.isSome →
    s'.x_post.isSome = postFlag s.x_post.isSome ops ∧
    s'.P_post.isSome = postFlag s.x_post.isSome ops := by
  intro ops
  induction ops with
  | nil =>
    intro s s' h hflag
    simp only [run] at h
    injection h with h
    subst h
    exact ⟨by simp [postFlag], by simp [postFlag, hflag]⟩
  | cons op ops ih =>
    intro s s' h hflag
    simp only [run] at h
    cases hstep : s.step op with
    | none => rw [hstep] at h; exact absurd h (by simp)
    | some s1 =>
      rw [hstep] at h
      have h1 := s.step_post_flag s1 op hstep hflag
      have h2 := ih s1 s' h (h1.1.trans h1.2.symm)
      rw [h1.1] at h2
      have : postFlag (postFlag s.x_post.isSome [op]) ops
          = postFlag s.x_post.isSome (op :: ops) := by
        simp [postFlag]
      rw [this] at h2
      exact h2

/-- `F` and `Q` are never modified by any call. -/
lemma step_FQ (s s' : KalmanFilter D) (op : Op D) (h : s.step op = some s') :
    s'.F = s.F ∧ s'.Q = s.Q := by
  cases op with
  | predictOp u =>
    simp only [step] at h
    cases hx : s.x_post with
    | none =>
      cases hP : s.P_post with
      | none => rw [s.predict_nopost hx hP u] at h; injection h with h; subst h; exact ⟨rfl, rfl⟩
      | some Pp => rw [KalmanFilter.predict, hx, hP] at h; exact absurd h (by simp)
    | some xp =>
      cases hP : s.P_post with
      | none => rw [KalmanFilter.predict, hx, hP] at h; exact absurd h (by simp)
      | some Pp => rw [s.predict_post xp Pp hx hP u] at h; injection h with h; subst h; exact ⟨rfl, rfl⟩
  | updateOp D2 H R Z =>
    simp only [step] at h
    cases hI : tryInverse (H * s.P_pre * H.transpose + R) with
    | none => rw [s.update_none_case H R Z hI] at h; exact absurd h (by simp)
    | some Sinv =>
      rw [s.update_eq_some H R Z Sinv hI] at h
      injection h with h
      subst h
      exact ⟨rfl, rfl⟩

lemma sym_sandwich (F P Q : Matrix (Fin D) (Fin D) ℚ)
    (hP : P.transpose = P) (hQ : Q.transpose = Q) :
    (F * P * F.transpose + Q).transpose = F * P * F.transpose + Q := by
  simp [Matrix.transpose_add, Matrix.transpose_mul, Matrix.transpose_transpose,
    hP, hQ, Matrix.mul_assoc]

lemma half_sym (M : Matrix (Fin D) (Fin D) ℚ) :
    ((1 / 2 : ℚ) • (M + M.transpose)).transpose = (1 / 2 : ℚ) • (M + M.transpose) := by
  rw [Matrix.transpose_smul, Matrix.transpose_add, Matrix.transpose_transpose, add_comm]

lemma half_self (M : Matrix (Fin D) (Fin D) ℚ) (h : M.transpose = M) :
    (1 / 2 : ℚ) • (M + M.transpose) = M := by
  rw [h, ← two_smul ℚ M, smul_smul]
  norm_num

/-- After any successful call, the prior covariance stays symmetric
(given a symmetric process noise). -/
lemma step_P_pre_sym (s s' : KalmanFilter D) (op : Op D) (h : s.step op = some s')
    (hQ : s.Q.transpose = s.Q) (hP : s.P_pre.transpose = s.P_pre) :
    s'.P_pre.transpose = s'.P_pre := by
  cases op with
  | predictOp u =>
    simp only [step] at h
    cases hx : s.x_post with
    | none =>
      cases hPp : s.P_post with
      | none =>
        rw [s.predict_nopost hx hPp u] at h; injection h with h; subst h
        exact sym_sandwich s.F s.P_pre s.Q hP hQ
      | some Pp => rw [KalmanFilter.predict, hx, hPp] at h; exact absurd h (by simp)
    | some xp =>
      cases hPp : s.P_post with
      | none => rw [KalmanFilter.predict, hx, hPp] at h; exact absurd h (by simp)
      | some Pp =>
        rw [s.predict_post xp Pp hx hPp u] at h; injection h with h; subst h
        exact sym_sandwich s.F _ s.Q (half_sym (Pp * s.P_pre)) hQ
  | updateOp D2 H R Z =>
    simp only [step] at h
    cases hI : tryInverse (H * s.P_pre * H.transpose + R) with
    | none => rw [s.update_none_case H R Z hI] at h; exact absurd h (by simp)
    | some Sinv =>
      rw [s.update_eq_some H R Z Sinv hI] at h
      injection h with h
      subst h
      exact hP

/-- Along any successful trace, the prior covariance stays symmetric. -/
lemma run_P_pre_sym : ∀ (ops : List (Op D)) (s s' : KalmanFilter D),
    s.run ops = some s' → s.Q.transpose = s.Q → s.P_pre.transpose = s.P_pre →
    s'.P_pre.transpose = s'.P_pre := by
  intro ops
  induction ops with
  | nil =>
    intro s s' h hQ hP
    simp only [run] at h
    injection h with h
    subst h
    exact hP
  | cons op ops ih =>
    intro s s' h hQ hP
    simp only [run] at h
    cases hstep : s.step op with
    | none => rw [hstep] at h; exact absurd h (by simp)
    | some s1 =>
      rw [hstep] at h
      have hFQ := s.step_FQ s1 op hstep
      exact ih s1 s' h (hFQ.2.symm ▸ hQ) (s.step_P_pre_sym s1 op hstep hQ hP)

/-- Neither `predict` nor `update` ever reads or writes the stored `R`. -/
lemma step_setR (s : KalmanFilter D) (r : Matrix (Fin D) (Fin D) ℚ) (op : Op D) :
    ({ s with R := r } : KalmanFilter D).step op
      = Option.map (fun t => { t with R := r }) (s.step op) := by
  obtain ⟨F, Q, R0, xpre, Ppre, xpo, Ppo⟩ := s
  cases op with
  | predictOp u => cases xpo <;> cases Ppo <;> rfl
  | updateOp D2 H R Z =>
    simp only [step, KalmanFilter.update]
    cases hI : tryInverse (H * Ppre * H.transpose + R) <;> rfl

lemma run_setR : ∀ (ops : List (Op D)) (s : KalmanFilter D) (r : Matrix (Fin D) (Fin D) ℚ),
    ({ s with R := r } : KalmanFilter D).run ops
      = Option.map (fun t => { t with R := r }) (s.run ops) := by
  intro ops
  induction ops with
  | nil => intro s r; rfl
  | cons op ops ih =>
    intro s r
    simp only [run, step_setR]
    cases hstep : s.step op with
    | none => rfl
    | some s1 => exact ih s1 r

/-- The combined covariance `(I − K·H)·P` is symmetric whenever `P` and `R`
are, with `K = P·Hᵀ·S⁻¹` and `S = H·P·Hᵀ + R`. -/
lemma joseph_sym {D2 : ℕ} (P : Matrix (Fin D) (Fin D) ℚ)
    (H : Matrix (Fin D2) (Fin D) ℚ) (R : Matrix (Fin D2) (Fin D2) ℚ)
    (hP : P.transpose = P) (hR : R.transpose = R) :
    (((1 : Matrix (Fin D) (Fin D) ℚ) - P * H.transpose * (H * P * H.transpose + R)⁻¹ * H) * P).transpose
      = ((1 : Matrix (Fin D) (Fin D) ℚ) - P * H.transpose * (H * P * H.transpose + R)⁻¹ * H) * P := by
  have hS : (H * (P * H.transpose) + R).transpose = H * (P * H.transpose) + R := by
    simp [Matrix.transpose_add, Matrix.transpose_mul, Matrix.transpose_transpose,
      hP, hR, Matrix.mul_assoc]
  have hSinv : ((H * (P * H.transpose) + R)⁻¹).transpose
      = (H * (P * H.transpose) + R)⁻¹ := by
    rw [Matrix.transpose_nonsing_inv, hS]
  simp [Matrix.transpose_sub, Matrix.transpose_one, Matrix.transpose_mul,
    Matrix.transpose_transpose, hP, hSinv, Matrix.sub_mul, Matrix.mul_sub,
    Matrix.one_mul, Matrix.mul_one, Matrix.mul_assoc]

end KalmanFilter

/-- Claim C1, counterexample: immediately after `new(F, Q, R, x₀, P₀)` the
posterior is NOT undefined — the constructor initializes it to
`(x₀, P₀)`, so "posterior defined iff an update occurred since the last
predict or construction" fails at the constructed state itself. -/
theorem C1_posterior_defined_after_new :
    (KalmanFilter.new (1 : Matrix (Fin 1) (Fin 1) ℚ) 1 1 0 1).x_post = some 0 ∧
    (KalmanFilter.new (1 : Matrix (Fin 1) (Fin 1) ℚ) 1 1 0 1).P_post = some 1 ∧
    (KalmanFilter.new (1 : Matrix (Fin 1) (Fin 1) ℚ) 1 1 0 1).x_post ≠ none := by
  refine ⟨rfl, rfl, by simp [KalmanFilter.new]⟩

/-- Claim C1, amended: after construction the prior equals `(x₀, P₀)` and
the posterior also equals `(x₀, P₀)` (it is defined); along every
successful call sequence the posterior is defined iff no `predict` has
occurred yet or the most recent call since the last `predict` included at
least one `update` (the `postFlag true` recurrence). -/
theorem C1_posterior_iff_amended {D : ℕ}
    (F Q R : Matrix (Fin D) (Fin D) ℚ) (x0 : Matrix (Fin D) (Fin 1) ℚ)
    (P0 : Matrix (Fin D) (Fin D) ℚ) (ops : List (Op D)) (s : KalmanFilter D)
    (h : (KalmanFilter.new F Q R x0 P0).run ops = some s) :
    ((KalmanFilter.new F Q R x0 P0).x_pre = x0 ∧
     (KalmanFilter.new F Q R x0 P0).P_pre = P0 ∧
     (KalmanFilter.new F Q R x0 P0).x_post = some x0 ∧
     (KalmanFilter.new F Q R x0 P0).P_post = some P0) ∧
    s.x_post.isSome = postFlag true ops ∧
    s.P_post.isSome = postFlag true ops := by
  have hflag := KalmanFilter.run_post_flag ops (KalmanFilter.new F Q R x0 P0) s h rfl
  exact ⟨⟨rfl, rfl, rfl, rfl⟩, hflag.1, hflag.2⟩

/-- Claim C1, witness for the amended theorem at a concrete construction
and the empty call sequence. -/
theorem C1_posterior_iff_amended_witness :
    ((KalmanFilter.new (1 : Matrix (Fin 1) (Fin 1) ℚ) 1 1 0 1).x_pre = 0 ∧
     (KalmanFilter.new (1 : Matrix (Fin 1) (Fin 1) ℚ) 1 1 0 1).P_pre = 1 ∧
     (KalmanFilter.new (1 : Matrix (Fin 1) (Fin 1) ℚ) 1 1 0 1).x_post = some 0 ∧
     (KalmanFilter.new (1 : Matrix (Fin 1) (Fin 1) ℚ) 1 1 0 1).P_post = some 1) ∧
    (KalmanFilter.new (1 : Matrix (Fin 1) (Fin 1) ℚ) 1 1 0 1).x_post.isSome
      = postFlag true ([] : List (Op 1)) ∧
    (KalmanFilter.new (1 : Matrix (Fin 1) (Fin 1) ℚ) 1 1 0 1).P_post.isSome
      = postFlag true ([] : List (Op 1)) :=
  (C1_posterior_iff_amended 1 1 1 0 1 []
    (KalmanFilter.new (1 : Matrix (Fin 1) (Fin 1) ℚ) 1 1 0 1) rfl).imp id id

/-- Claim C2, code-bug evidence: in the no-posterior branch, `predict`
ignores its control input entirely.  At the concrete state `sNoPost`
(`F = [1]`, `x_pre = [0]`, no posterior) with input `u = [5]`, the code
leaves `x_pre = F·x_pre = [0]`, although the claimed recurrence
`F·x_pre + u = [5]` differs. -/
theorem C2_predict_drops_input :
    sNoPost.predict (some uIn) = sNoPost.predict none ∧
    sNoPost.predict (some uIn) = some { sNoPost with
      x_pre := sNoPost.F * sNoPost.x_pre,
      P_pre := sNoPost.F * sNoPost.P_pre * sNoPost.F.transpose + sNoPost.Q } ∧
    sNoPost.F * sNoPost.x_pre + uIn ≠ sNoPost.F * sNoPost.x_pre := by
  refine ⟨rfl, rfl, ?_⟩
  intro hcontra
  have h0 := congrFun (congrFun hcontra 0) 0
  simp [sNoPost, uIn, Matrix.mul_apply, Matrix.add_apply, Fin.sum_univ_one,
    Matrix.one_apply, Matrix.zero_apply] at h0

/-- Claim C3: with `S = H·P_pre·Hᵀ + R` invertible, `update` succeeds and
sets `x_post` to (old posterior state, or the prior state on the first
update) plus `K·y`, and `P_post` to (old posterior covariance, or the
identity on the first update) minus `K·H`, with `y = Z − H·x_pre` and
`K = P_pre·Hᵀ·S⁻¹`; afterwards both posterior fields are defined. -/
theorem C3_update_formulas {D D2 : ℕ} (s : KalmanFilter D)
    (H : Matrix (Fin D2) (Fin D) ℚ) (R : Matrix (Fin D2) (Fin D2) ℚ)
    (Z : Matrix (Fin D2) (Fin 1) ℚ)
    (hdet : (H * s.P_pre * H.transpose + R).det ≠ 0) :
    ∃ s', s.update H R Z = some s' ∧
      s'.x_post = some ((match s.x_post with
        | some xp => xp
        | none => s.x_pre)
        + s.P_pre * H.transpose * (H * s.P_pre * H.transpose + R)⁻¹ * (Z - H * s.x_pre)) ∧
      s'.P_post = some ((match s.P_post with
        | some Pp => Pp
        | none => (1 : Matrix (Fin D) (Fin D) ℚ))
        - s.P_pre * H.transpose * (H * s.P_pre * H.transpose + R)⁻¹ * H) ∧
      s'.x_post.isSome = true ∧ s'.P_post.isSome = true := by
  have hI := KalmanFilter.tryInverse_eq_inv _ hdet
  refine ⟨_, s.update_eq_some H R Z _ hI, ?_, ?_, rfl, rfl⟩
  · cases s.x_post <;> rfl
  · cases s.P_post <;> rfl

/-- Claim C3, witness at a concrete one-dimensional state and measurement. -/
theorem C3_update_formulas_witness :
    ((1 : Matrix (Fin 1) (Fin 1) ℚ) * sNoPost.P_pre * (1 : Matrix (Fin 1) (Fin 1) ℚ).transpose
        + 1).det ≠ 0 ∧
    (∃ s', sNoPost.update (1 : Matrix (Fin 1) (Fin 1) ℚ) 1 1 = some s' ∧
      s'.x_post = some ((match sNoPost.x_post with
        | some xp => xp
        | none => sNoPost.x_pre)
        + sNoPost.P_pre * (1 : Matrix (Fin 1) (Fin 1) ℚ).transpose
          * ((1 : Matrix (Fin 1) (Fin 1) ℚ) * sNoPost.P_pre
              * (1 : Matrix (Fin 1) (Fin 1) ℚ).transpose + 1)⁻¹
          * ((1 : Matrix (Fin 1) (Fin 1) ℚ) - 1 * sNoPost.x_pre)) ∧
      s'.P_post = some ((match sNoPost.P_post with
        | some Pp => Pp
        | none => (1 : Matrix (Fin 1) (Fin 1) ℚ))
        - sNoPost.P_pre * (1 : Matrix (Fin 1) (Fin 1) ℚ).transpose
          * ((1 : Matrix (Fin 1) (Fin 1) ℚ) * sNoPost.P_pre
              * (1 : Matrix (Fin 1) (Fin 1) ℚ).transpose + 1)⁻¹ * 1) ∧
      s'.x_post.isSome = true ∧ s'.P_post.isSome = true) := by
  have hdet : ((1 : Matrix (Fin 1) (Fin 1) ℚ) * sNoPost.P_pre
      * (1 : Matrix (Fin 1) (Fin 1) ℚ).transpose + 1).det ≠ 0 := by
    rw [Matrix.det_fin_one]
    simp [Matrix.add_apply, Matrix.one_apply, Matrix.mul_apply, Fin.sum_univ_one,
      Matrix.transpose_apply, sNoPost]
  exact ⟨hdet, C3_update_formulas sNoPost (1 : Matrix (Fin 1) (Fin 1) ℚ) 1 1 hdet⟩

/-- Claim C4: when a posterior `(xp, Pp)` is pending, `predict` combines
`Pp` with the still-current prior covariance as `Pp·P_pre`, symmetrizes
the product, propagates `x_pre = F·xp (+ u)` and
`P_pre = F·(symmetrized)·Fᵀ + Q`, and clears both posterior fields. -/
theorem C4_predict_finalizes {D : ℕ} (s : KalmanFilter D)
    (xp : Matrix (Fin D) (Fin 1) ℚ) (Pp : Matrix (Fin D) (Fin D) ℚ)
    (u : Option (Matrix (Fin D) (Fin 1) ℚ))
    (hx : s.x_post = some xp) (hP : s.P_post = some Pp) :
    s.predict u = some { s with
      x_pre := match u with
        | some uv => s.F * xp + uv
        | none => s.F * xp,
      P_pre := s.F * ((1 / 2 : ℚ) • (Pp * s.P_pre + (Pp * s.P_pre).transpose))
          * s.F.transpose + s.Q,
      x_post := none,
      P_post := none } :=
  s.predict_post xp Pp hx hP u

/-- Claim C4, witness at the freshly constructed one-dimensional filter
with control input `[5]`. -/
theorem C4_predict_finalizes_witness :
    filA.x_post = some 0 ∧ filA.P_post = some 1 ∧
    filA.predict (some uIn) = some { filA with
      x_pre := match some uIn with
        | some uv => filA.F * 0 + uv
        | none => filA.F * 0,
      P_pre := filA.F * ((1 / 2 : ℚ) • ((1 : Matrix (Fin 1) (Fin 1) ℚ) * filA.P_pre
          + ((1 : Matrix (Fin 1) (Fin 1) ℚ) * filA.P_pre).transpose))
          * filA.F.transpose + filA.Q,
      x_post := none,
      P_post := none } :=
  ⟨rfl, rfl, C4_predict_finalizes filA 0 1 (some uIn) rfl rfl⟩

/-- Claim C5: from a state with no pending posterior, symmetric prior
covariance and symmetric measurement noise, and invertible
`S = H·P·Hᵀ + R`, one `update` followed immediately by one `predict`
yields exactly the classical one-shot Kalman recurrence
`x = F·(x + K·y) (+ u)` and `P = F·((I − K·H)·P)·Fᵀ + Q`. -/
theorem C5_update_then_predict_classical {D D2 : ℕ} (s : KalmanFilter D)
    (H : Matrix (Fin D2) (Fin D) ℚ) (R : Matrix (Fin D2) (Fin D2) ℚ)
    (Z : Matrix (Fin D2) (Fin 1) ℚ) (u : Option (Matrix (Fin D) (Fin 1) ℚ))
    (hx : s.x_post = none) (hP : s.P_post = none)
    (hPs : s.P_pre.transpose = s.P_pre) (hR : R.transpose = R)
    (hdet : (H * s.P_pre * H.transpose + R).det ≠ 0) :
    ∃ s1 s2, s.update H R Z = some s1 ∧ s1.predict u = some s2 ∧
      s2.x_pre = (match u with
        | some uv => s.F * (s.x_pre
            + s.P_pre * H.transpose * (H * s.P_pre * H.transpose + R)⁻¹
              * (Z - H * s.x_pre)) + uv
        | none => s.F * (s.x_pre
            + s.P_pre * H.transpose * (H * s.P_pre * H.transpose + R)⁻¹
              * (Z - H * s.x_pre))) ∧
      s2.P_pre = s.F * (((1 : Matrix (Fin D) (Fin D) ℚ)
            - s.P_pre * H.transpose * (H * s.P_pre * H.transpose + R)⁻¹ * H) * s.P_pre)
          * s.F.transpose + s.Q ∧
      s2.x_post = none ∧ s2.P_post = none := by
  have hI := KalmanFilter.tryInverse_eq_inv _ hdet
  have hupd := s.update_eq_some H R Z _ hI
  have hupd2 : s.update H R Z = some { s with
      x_post := some (s.x_pre + s.P_pre * H.transpose
        * (H * s.P_pre * H.transpose + R)⁻¹ * (Z - H * s.x_pre)),
      P_post := some ((1 : Matrix (Fin D) (Fin D) ℚ) - s.P_pre * H.transpose
        * (H * s.P_pre * H.transpose + R)⁻¹ * H) } := by
    rw [hupd, hx, hP]
  refine ⟨_, _, hupd2, KalmanFilter.predict_post _ _ _ rfl rfl u, ?_, ?_, rfl, rfl⟩
  · cases u <;> rfl
  · show s.F * ((1 / 2 : ℚ) • (_ + _)) * s.F.transpose + s.Q = _
    rw [KalmanFilter.half_self _ (KalmanFilter.joseph_sym s.P_pre H R hPs hR)]

/-- Claim C5, witness at a concrete one-dimensional state and measurement. -/
theorem C5_update_then_predict_classical_witness :
    (sNoPost.x_post = none ∧ sNoPost.P_post = none ∧
     sNoPost.P_pre.transpose = sNoPost.P_pre ∧
     (1 : Matrix (Fin 1) (Fin 1) ℚ).transpose = 1 ∧
     ((1 : Matrix (Fin 1) (Fin 1) ℚ) * sNoPost.P_pre
        * (1 : Matrix (Fin 1) (Fin 1) ℚ).transpose + 1).det ≠ 0) ∧
    (∃ s1 s2, sNoPost.update (1 : Matrix (Fin 1) (Fin 1) ℚ) 1 1 = some s1 ∧ s1.predict (some uIn) = some s2 ∧
      s2.x_pre = (match some uIn with
        | some uv => sNoPost.F * (sNoPost.x_pre
            + sNoPost.P_pre * (1 : Matrix (Fin 1) (Fin 1) ℚ).transpose
              * ((1 : Matrix (Fin 1) (Fin 1) ℚ) * sNoPost.P_pre
                  * (1 : Matrix (Fin 1) (Fin 1) ℚ).transpose + 1)⁻¹
              * ((1 : Matrix (Fin 1) (Fin 1) ℚ) - 1 * sNoPost.x_pre)) + uv
        | none => sNoPost.F * (sNoPost.x_pre
            + sNoPost.P_pre * (1 : Matrix (Fin 1) (Fin 1) ℚ).transpose
              * ((1 : Matrix (Fin 1) (Fin 1) ℚ) * sNoPost.P_pre
                  * (1 : Matrix (Fin 1) (Fin 1) ℚ).transpose + 1)⁻¹
              * ((1 : Matrix (Fin 1) (Fin 1) ℚ) - 1 * sNoPost.x_pre))) ∧
      s2.P_pre = sNoPost.F * (((1 : Matrix (Fin 1) (Fin 1) ℚ)
            - sNoPost.P_pre * (1 : Matrix (Fin 1) (Fin 1) ℚ).transpose
              * ((1 : Matrix (Fin 1) (Fin 1) ℚ) * sNoPost.P_pre
                  * (1 : Matrix (Fin 1) (Fin 1) ℚ).transpose + 1)⁻¹ * 1) * sNoPost.P_pre)
          * sNoPost.F.transpose + sNoPost.Q ∧
      s2.x_post = none ∧ s2.P_post = none) := by
  have hdet : ((1 : Matrix (Fin 1) (Fin 1) ℚ) * sNoPost.P_pre
      * (1 : Matrix (Fin 1) (Fin 1) ℚ).transpose + 1).det ≠ 0 := by
    rw [Matrix.det_fin_one]
    simp [Matrix.add_apply, Matrix.one_apply, Matrix.mul_apply, Fin.sum_univ_one,
      Matrix.transpose_apply, sNoPost]
  have hPs : sNoPost.P_pre.transpose = sNoPost.P_pre := by
    simp [sNoPost, Matrix.transpose_one]
  exact ⟨⟨rfl, rfl, hPs, Matrix.transpose_one, hdet⟩,
    C5_update_then_predict_classical sNoPost (1 : Matrix (Fin 1) (Fin 1) ℚ) 1 1 (some uIn) rfl rfl hPs
      Matrix.transpose_one hdet⟩

/-- Claim C6, counterexample: a reachable state (constructed with
symmetric `P₀ = [[1,1],[1,2]]`, `Q = I`, `R = I`, then one `update` with
symmetric per-call `R`) whose posterior covariance
`[[1/2, 1],[1/2, 2]]` is not symmetric: `update` performs no
symmetrization. -/
theorem C6_posterior_sym_counterexample :
    P0c.transpose = P0c ∧
    (1 : Matrix (Fin 2) (Fin 2) ℚ).transpose = 1 ∧
    R1c.transpose = R1c ∧
    s6run.run [Op.updateOp 1 H1c R1c Z1c] = some s6after ∧
    s6after.P_post = some Pbad ∧
    Pbad.transpose ≠ Pbad := by
  have hS : H1c * s6run.P_pre * H1c.transpose + R1c = Matrix.of ![![2]] := by
    ext i j
    fin_cases i; fin_cases j
    simp [Matrix.mul_apply, Fin.sum_univ_two, Fin.sum_univ_one, H1c, P0c, R1c, s6run,
      KalmanFilter.new, Matrix.vecHead, Matrix.vecTail]
    norm_num
  have hInv : KalmanFilter.tryInverse (H1c * s6run.P_pre * H1c.transpose + R1c)
      = some (Matrix.of ![![1/2]]) := by
    rw [hS, KalmanFilter.tryInverse, Matrix.det_fin_one]
    norm_num
    ext i j
    fin_cases i; fin_cases j
    simp [Matrix.adjugate_fin_one, Matrix.one_apply]
  have hupd := s6run.update_eq_some H1c R1c Z1c _ hInv
  refine ⟨?_, Matrix.transpose_one, ?_, ?_, rfl, ?_⟩
  · ext i j
    fin_cases i <;> fin_cases j <;> simp [P0c, Matrix.transpose_apply]
  · ext i j
    fin_cases i
    fin_cases j
    simp [R1c, Matrix.transpose_apply]
  · simp only [KalmanFilter.run, KalmanFilter.step, hupd]
    simp only [Option.some.injEq]
    show ({ s6run with x_post := _, P_post := _ } : KalmanFilter 2) = s6after
    simp only [s6run, s6after, KalmanFilter.new, KalmanFilter.mk.injEq]
    refine ⟨trivial, trivial, trivial, trivial, trivial, ?_, ?_⟩
    · congr 1
      ext i j
      fin_cases i <;> fin_cases j <;>
        simp [Matrix.mul_apply, Fin.sum_univ_two, Fin.sum_univ_one, H1c, P0c, Z1c,
          Matrix.vecHead, Matrix.vecTail]
    · congr 1
      ext i j
      fin_cases i <;> fin_cases j <;>
        simp [Matrix.mul_apply, Fin.sum_univ_two, Fin.sum_univ_one, H1c, P0c, Pbad,
          Matrix.vecHead, Matrix.vecTail]
      all_goals norm_num
  · intro hsym
    have h01 := congrFun (congrFun hsym 1) 0
    simp [Pbad, Matrix.transpose_apply, Matrix.vecHead, Matrix.vecTail] at h01

/-- Claim C6, amended: along every successful trace from a construction
with symmetric `P₀` and `Q`, the prior covariance `P_pre` is symmetric
(the posterior covariance, by contrast, is only symmetrized inside
`predict` and need not be symmetric after an `update`). -/
theorem C6_prior_sym_amended {D : ℕ}
    (F Q R : Matrix (Fin D) (Fin D) ℚ) (x0 : Matrix (Fin D) (Fin 1) ℚ)
    (P0 : Matrix (Fin D) (Fin D) ℚ) (ops : List (Op D)) (s : KalmanFilter D)
    (hQ : Q.transpose = Q) (hP0 : P0.transpose = P0)
    (h : (KalmanFilter.new F Q R x0 P0).run ops = some s) :
    s.P_pre.transpose = s.P_pre :=
  KalmanFilter.run_P_pre_sym ops (KalmanFilter.new F Q R x0 P0) s h hQ hP0

/-- Claim C6, witness for the amended theorem: a concrete construction
and the empty trace. -/
theorem C6_prior_sym_amended_witness :
    (1 : Matrix (Fin 1) (Fin 1) ℚ).transpose = 1 ∧
    (KalmanFilter.new (1 : Matrix (Fin 1) (Fin 1) ℚ) 1 1 0 1).P_pre.transpose
      = (KalmanFilter.new (1 : Matrix (Fin 1) (Fin 1) ℚ) 1 1 0 1).P_pre :=
  ⟨Matrix.transpose_one,
    C6_prior_sym_amended 1 1 1 0 1 []
      (KalmanFilter.new (1 : Matrix (Fin 1) (Fin 1) ℚ) 1 1 0 1)
      Matrix.transpose_one Matrix.transpose_one rfl⟩

/-- Claim C7: `update` fails (aborts, modelled as `none`, with no state
escaping) exactly when the innovation covariance `S = H·P_pre·Hᵀ + R` is
singular; with invertible `S` it completes. -/
theorem C7_update_none_iff_singular {D D2 : ℕ} (s : KalmanFilter D)
    (H : Matrix (Fin D2) (Fin D) ℚ) (R : Matrix (Fin D2) (Fin D2) ℚ)
    (Z : Matrix (Fin D2) (Fin 1) ℚ) :
    s.update H R Z = none ↔ (H * s.P_pre * H.transpose + R).det = 0 := by
  constructor
  · intro hnone
    by_contra hdet
    rw [s.update_eq_some H R Z _ (KalmanFilter.tryInverse_eq_inv _ hdet)] at hnone
    exact absurd hnone (by simp)
  · intro hdet
    exact s.update_none_case H R Z ((KalmanFilter.tryInverse_none_iff _).mpr hdet)

/-- Claim C8: a successful `update` modifies only the posterior fields:
`x_pre`, `P_pre`, `F` and `Q` are unchanged. -/
theorem C8_update_frame {D D2 : ℕ} (s : KalmanFilter D)
    (H : Matrix (Fin D2) (Fin D) ℚ) (R : Matrix (Fin D2) (Fin D2) ℚ)
    (Z : Matrix (Fin D2) (Fin 1) ℚ)
    (hdet : (H * s.P_pre * H.transpose + R).det ≠ 0) :
    ∃ s', s.update H R Z = some s' ∧ s'.x_pre = s.x_pre ∧ s'.P_pre = s.P_pre ∧
      s'.F = s.F ∧ s'.Q = s.Q :=
  ⟨_, s.update_eq_some H R Z _ (KalmanFilter.tryInverse_eq_inv _ hdet),
    rfl, rfl, rfl, rfl⟩

/-- Claim C8, witness at a concrete one-dimensional state and measurement. -/
theorem C8_update_frame_witness :
    ((1 : Matrix (Fin 1) (Fin 1) ℚ) * sNoPost.P_pre
        * (1 : Matrix (Fin 1) (Fin 1) ℚ).transpose + 1).det ≠ 0 ∧
    (∃ s', sNoPost.update (1 : Matrix (Fin 1) (Fin 1) ℚ) 1 1 = some s' ∧ s'.x_pre = sNoPost.x_pre ∧
      s'.P_pre = sNoPost.P_pre ∧ s'.F = sNoPost.F ∧ s'.Q = sNoPost.Q) := by
  have hdet : ((1 : Matrix (Fin 1) (Fin 1) ℚ) * sNoPost.P_pre
      * (1 : Matrix (Fin 1) (Fin 1) ℚ).transpose + 1).det ≠ 0 := by
    rw [Matrix.det_fin_one]
    simp [Matrix.add_apply, Matrix.one_apply, Matrix.mul_apply, Fin.sum_univ_one,
      Matrix.transpose_apply, sNoPost]
  exact ⟨hdet, C8_update_frame sNoPost (1 : Matrix (Fin 1) (Fin 1) ℚ) 1 1 hdet⟩

/-- Claim C9: in every state reachable from construction the two posterior
fields agree in definedness; `predict` returns `none` (panics) exactly on
the malformed mixed combinations, and from any reachable state every
`predict` avoids those panic arms. -/
theorem C9_posterior_consistency {D : ℕ}
    (F Q R : Matrix (Fin D) (Fin D) ℚ) (x0 : Matrix (Fin D) (Fin 1) ℚ)
    (P0 : Matrix (Fin D) (Fin D) ℚ) (ops : List (Op D)) (s : KalmanFilter D)
    (h : (KalmanFilter.new F Q R x0 P0).run ops = some s) :
    (s.x_post.isSome ↔ s.P_post.isSome) ∧
    (∀ (t : KalmanFilter D) (u : Option (Matrix (Fin D) (Fin 1) ℚ)),
      t.x_post.isSome ≠ t.P_post.isSome → t.predict u = none) ∧
    (∀ u, (s.predict u).isSome) := by
  have hflag := KalmanFilter.run_post_flag ops (KalmanFilter.new F Q R x0 P0) s h rfl
  have heq : s.x_post.isSome = s.P_post.isSome := hflag.1.trans hflag.2.symm
  refine ⟨by rw [heq], ?_, ?_⟩
  · intro t u hne
    cases hx : t.x_post with
    | none =>
      cases hP : t.P_post with
      | none => rw [hx, hP] at hne; simp at hne
      | some Pp => rw [KalmanFilter.predict, hx, hP]
    | some xp =>
      cases hP : t.P_post with
      | none => rw [KalmanFilter.predict, hx, hP]
      | some Pp => rw [hx, hP] at hne; simp at hne
  · intro u
    cases hx : s.x_post with
    | none =>
      cases hP : s.P_post with
      | none => rw [s.predict_nopost hx hP u]; rfl
      | some Pp => rw [hx, hP] at heq; simp at heq
    | some xp =>
      cases hP : s.P_post with
      | none => rw [hx, hP] at heq; simp at heq
      | some Pp => rw [s.predict_post xp Pp hx hP u]; rfl

/-- Claim C9, witness at a concrete construction and the empty trace. -/
theorem C9_posterior_consistency_witness :
    ((KalmanFilter.new (1 : Matrix (Fin 1) (Fin 1) ℚ) 1 1 0 1).x_post.isSome ↔
     (KalmanFilter.new (1 : Matrix (Fin 1) (Fin 1) ℚ) 1 1 0 1).P_post.isSome) ∧
    (∀ (t : KalmanFilter 1) (u : Option (Matrix (Fin 1) (Fin 1) ℚ)),
      t.x_post.isSome ≠ t.P_post.isSome → t.predict u = none) ∧
    (∀ u, ((KalmanFilter.new (1 : Matrix (Fin 1) (Fin 1) ℚ) 1 1 0 1).predict u).isSome) :=
  C9_posterior_consistency 1 1 1 0 1 []
    (KalmanFilter.new (1 : Matrix (Fin 1) (Fin 1) ℚ) 1 1 0 1) rfl

/-- Claim C10: the constructor-supplied `R` is never read: two filters
built with identical `F`, `Q`, `x₀`, `P₀` but different constructor `R`
produce, under every identical call sequence (each `update` carrying its
own per-call `R`), identical `F`, `Q`, prior and posterior states. -/
theorem C10_ctor_noise_unused {D : ℕ}
    (F Q R1 R2 : Matrix (Fin D) (Fin D) ℚ) (x0 : Matrix (Fin D) (Fin 1) ℚ)
    (P0 : Matrix (Fin D) (Fin D) ℚ) (ops : List (Op D)) :
    Option.map stateObs ((KalmanFilter.new F Q R1 x0 P0).run ops)
      = Option.map stateObs ((KalmanFilter.new F Q R2 x0 P0).run ops) := by
  have h1 : KalmanFilter.new F Q R1 x0 P0
      = { KalmanFilter.new F Q R2 x0 P0 with R := R1 } := rfl
  rw [h1, KalmanFilter.run_setR, Option.map_map]
  rfl
